import Mathlib

/-!
# Verification of the zippydb query-compilation core

A shallow embedding of the zippydb fluent SQL query builder: the stateless
`Grammar` (SQL-text rendering with `$N` placeholders) and the stateful
`Builder` (fluent accumulation of a `QueryState`, terminal operations that
compile, execute through an injected driver, and reset).

JavaScript runtime values are modelled by `Val` (with `vUndefined` standing
for `undefined`), a driver result row by an association list, and the driver
itself by a pure oracle `Exec`.  Each terminal operation returns an
`Outcome`: its result (`Except` a query error), the post-call state of the
builder instance, and the trace of `execute` calls it made, so that
"the driver was never invoked" and "exactly these bindings were passed"
are directly statable.
-/

namespace ZippyDB

/-- JavaScript runtime values, as far as the builder observes them. -/
inductive Val where
  | vNull
  | vUndefined
  | vBool (b : Bool)
  | vInt (n : Int)
  | vStr (s : String)
deriving DecidableEq, Repr

/-- A driver result row: a mapping from column name to value. -/
abbrev Row := List (String × Val)

/-- JavaScript property access: a missing key reads as `undefined`. -/
def getProp (r : Row) (k : String) : Val :=
  match r.lookup k with
  | some v => v
  | none => Val.vUndefined

/-- One conjunctive WHERE predicate, as pushed by `where(column, operator, value)`. -/
structure WhereClause where
  column : String
  operator : String
  value : Val
deriving DecidableEq, Repr

/-- The two legal `orderBy` directions. -/
inductive Direction where
  | asc
  | desc
deriving DecidableEq, Repr

/-- `direction.toUpperCase()` over the two legal direction strings. -/
def Direction.toUpper : Direction → String
  | .asc => "ASC"
  | .desc => "DESC"

/-- One ORDER BY term. -/
structure OrderClause where
  column : String
  direction : Direction
deriving DecidableEq, Repr

/-- Index-aware list map starting from a given index:
the shape of JavaScript's `arr.map((x, i) => ...)` with an explicit base. -/
def mapIdxFrom (f : Nat → α → β) : Nat → List α → List β
  | _, [] => []
  | i, x :: xs => f i x :: mapIdxFrom f (i + 1) xs

/-- JavaScript's `arr.map((x, i) => f(i, x))`. -/
def jsMapIdx (f : Nat → α → β) (l : List α) : List β := mapIdxFrom f 0 l

/-- Replace the first occurrence of `pat` in a character list, leaving the
rest untouched (the semantics of JavaScript's `String.prototype.replace`
with a string pattern). -/
def replaceFirstAux (pat repl : List Char) : List Char → List Char
  | [] => []
  | c :: rest =>
    if (c :: rest).take pat.length = pat then repl ++ (c :: rest).drop pat.length
    else c :: replaceFirstAux pat repl rest

/-- JavaScript's `s.replace(pat, repl)`: first occurrence only. -/
def jsReplaceFirst (s pat repl : String) : String :=
  String.mk (replaceFirstAux pat.data repl.data s.data)

/-! ## Grammar

Pure translation from query-shape primitives to SQL text, translated from
`src/core/grammar.ts`.  A `data` map is embedded as an association list
whose order is the map's key iteration order. -/

/-- `Grammar.compileSelect`. -/
def compileSelect (table : String) (columns : List String) : String :=
  let cols := if columns.length > 0 then String.intercalate ", " columns else "*"
  "SELECT " ++ cols ++ " FROM " ++ table

/-- `Grammar.compileInsert`. -/
def compileInsert (table : String) (data : List (String × Val)) :
    String × List Val :=
  let keys := data.map Prod.fst
  let values := data.map Prod.snd
  let placeholders :=
    String.intercalate ", " (jsMapIdx (fun i _ => "$" ++ toString (i + 1)) keys)
  let sql := "INSERT INTO " ++ table ++ " (" ++ String.intercalate ", " keys ++
    ") VALUES (" ++ placeholders ++ ") RETURNING *"
  (sql, values)

/-- `Grammar.compileUpdate`. -/
def compileUpdate (table : String) (data : List (String × Val))
    (wheres : List WhereClause) : String × List Val :=
  let keys := data.map Prod.fst
  let values := data.map Prod.snd
  let setClause :=
    String.intercalate ", "
      (jsMapIdx (fun i key => key ++ " = $" ++ toString (i + 1)) keys)
  let sql := "UPDATE " ++ table ++ " SET " ++ setClause
  let sql :=
    if wheres.length > 0 then
      sql ++ " WHERE " ++
        String.intercalate " AND "
          (jsMapIdx
            (fun i w => w.column ++ " " ++ w.operator ++ " $" ++
              toString (keys.length + i + 1))
            wheres)
    else sql
  (sql, values)

/-- `Grammar.compileDelete`. -/
def compileDelete (table : String) (wheres : List WhereClause) : String :=
  let sql := "DELETE FROM " ++ table
  if wheres.length > 0 then
    sql ++ " WHERE " ++
      String.intercalate " AND "
        (jsMapIdx
          (fun i w => w.column ++ " " ++ w.operator ++ " $" ++ toString (i + 1))
          wheres)
  else sql

/-! ## Builder state

The mutable `QueryState` of the full-featured `Builder` in
`src/core/builder.ts`, with its construction-time defaults. -/

/-- The per-instance mutable state of a `Builder`, at its construction-time
defaults. -/
structure QueryState where
  table : String := ""
  columns : List String := ["*"]
  wheres : List WhereClause := []
  orders : List OrderClause := []
  limit : Option Int := none
  offset : Option Int := none
  distinct : Bool := false
  bindings : List Val := []
deriving DecidableEq, Repr

/-- A fresh `QueryState`, as built by the `Builder` constructor. -/
def initState : QueryState := {}

/-- `Builder.reset`: clears `wheres`, `bindings`, `columns`, `limit`,
`offset`, `orders` and `distinct` — and nothing else. -/
def resetState (st : QueryState) : QueryState :=
  { st with
    wheres := []
    bindings := []
    columns := ["*"]
    limit := none
    offset := none
    orders := []
    distinct := false }

/-- The private `compileWheres` method: conjunctive WHERE text with
placeholders `$1..$n` over the accumulated predicates. -/
def QueryState.compileWheres (st : QueryState) : String :=
  if st.wheres.length = 0 then ""
  else
    " WHERE " ++
      String.intercalate " AND "
        (jsMapIdx
          (fun i w => w.column ++ " " ++ w.operator ++ " $" ++ toString (i + 1))
          st.wheres)

/-- The private `compileOrders` method. -/
def QueryState.compileOrders (st : QueryState) : String :=
  if st.orders.length = 0 then ""
  else
    " ORDER BY " ++
      String.intercalate ", "
        (st.orders.map (fun o => o.column ++ " " ++ o.direction.toUpper))

/-- A `Builder` instance: its mutable query state plus the identity of the
injected execution port (the driver is externally owned and shared by
reference, so only its identity matters to the builder). -/
structure Builder where
  st : QueryState
  driver : Nat
deriving DecidableEq, Repr

/-- `Builder.table(name)`: a **new** instance over the same driver, with a
fresh default state whose table is `name`. -/
def Builder.table (b : Builder) (name : String) : Builder :=
  { st := { initState with table := name }, driver := b.driver }

/-- `Builder.select(...columns)`: replaces the projection list. -/
def Builder.select (b : Builder) (columns : List String) : Builder :=
  { b with st := { b.st with columns := columns } }

/-- `Builder.distinct()`. -/
def Builder.distinct (b : Builder) : Builder :=
  { b with st := { b.st with distinct := true } }

/-- `Builder.where(column, operator, value)`: appends the predicate and
pushes its value onto `bindings`. -/
def Builder.where_ (b : Builder) (column operator : String) (value : Val) :
    Builder :=
  { b with
    st :=
      { b.st with
        wheres := b.st.wheres ++ [⟨column, operator, value⟩]
        bindings := b.st.bindings ++ [value] } }

/-- `Builder.orderBy(column, direction)`. -/
def Builder.orderBy (b : Builder) (column : String) (direction : Direction) :
    Builder :=
  { b with st := { b.st with orders := b.st.orders ++ [⟨column, direction⟩] } }

/-- `Builder.limit(n)`. -/
def Builder.limit (b : Builder) (n : Int) : Builder :=
  { b with st := { b.st with limit := some n } }

/-- `Builder.offset(n)`. -/
def Builder.offset (b : Builder) (n : Int) : Builder :=
  { b with st := { b.st with offset := some n } }

/-! ## Terminal operations

Each terminal operation is a function of the pre-call state and the
execution port, returning an `Outcome`: the settled result, the state the
instance is left in, and the trace of `execute(sql, params)` calls made. -/

/-- An error surfaced by a terminal operation. -/
inductive QErr where
  /-- Usage error: no table selected (`validateTable`). -/
  | noTable
  /-- Usage error: empty update payload. -/
  | noData
  /-- A JavaScript runtime `TypeError` (property access on `undefined`). -/
  | jsTypeError
  /-- An error raised by the execution port, propagated unmodified. -/
  | driver (msg : String)
deriving DecidableEq, Repr

/-- The execution port: a pure oracle from SQL text and bound parameters to
either a driver error or a row list. -/
abbrev Exec := String → List Val → Except String (List Row)

/-- What one terminal call leaves behind: its result, the post-call
`QueryState` of the instance, and the `execute` calls it issued. -/
structure Outcome (α : Type) where
  res : Except QErr α
  post : QueryState
  calls : List (String × List Val)
deriving Repr

/-- The SQL text `get()` assembles: `compileSelect`, the DISTINCT text
substitution, then WHERE, ORDER BY, LIMIT, OFFSET in that fixed order. -/
def getSql (st : QueryState) : String :=
  let sql := compileSelect st.table st.columns
  let sql := if st.distinct then jsReplaceFirst sql "SELECT" "SELECT DISTINCT" else sql
  let sql := sql ++ st.compileWheres ++ st.compileOrders
  let sql := match st.limit with
    | some n => sql ++ " LIMIT " ++ toString n
    | none => sql
  match st.offset with
  | some n => sql ++ " OFFSET " ++ toString n
  | none => sql

/-- `Builder.get()`. -/
def getOp (st : QueryState) (exec : Exec) : Outcome (List Row) :=
  if st.table = "" then ⟨.error .noTable, st, []⟩
  else
    match exec (getSql st) st.bindings with
    | .error e => ⟨.error (.driver e), st, [(getSql st, st.bindings)]⟩
    | .ok rows => ⟨.ok rows, resetState st, [(getSql st, st.bindings)]⟩

/-- `Builder.first()`: `this.limit(1)` then delegate to `get()`; an empty
result set becomes an explicit `none` (JavaScript `null`), never an error. -/
def firstOp (st : QueryState) (exec : Exec) : Outcome (Option Row) :=
  let o := getOp { st with limit := some 1 } exec
  match o.res with
  | .error e => ⟨.error e, o.post, o.calls⟩
  | .ok rows => ⟨.ok rows.head?, o.post, o.calls⟩

/-- The literal SQL text `count()` assembles (bypassing `compileSelect`). -/
def countSql (st : QueryState) : String :=
  "SELECT COUNT(*) as count FROM " ++ st.table ++ st.compileWheres

/-- JavaScript `parseInt(•, 10)` on a leading run of digits; `none` is NaN. -/
def digitsVal : List Char → Option Nat → Option Nat
  | [], acc => acc
  | c :: rest, acc =>
    if c.isDigit then digitsVal rest (some ((acc.getD 0) * 10 + (c.toNat - 48)))
    else acc

/-- `parseInt(s, 10)` for a string argument, with an optional leading sign. -/
def parseIntStr (s : String) : Option Int :=
  match s.data with
  | '-' :: rest => (digitsVal rest none).map (fun n => -(n : Int))
  | l => (digitsVal l none).map (fun n => (n : Int))

/-- `parseInt(v, 10)` after JavaScript's string coercion of `v`. -/
def jsParseInt10 (v : Val) : Option Int :=
  match v with
  | .vStr s => parseIntStr s
  | .vInt n => some n
  | _ => none

/-- `Builder.count()`: executes the literal COUNT query, resets, then reads
`result[0].count` — a property access that is a runtime `TypeError` when the
row list is empty. -/
def countOp (st : QueryState) (exec : Exec) : Outcome (Option Int) :=
  if st.table = "" then ⟨.error .noTable, st, []⟩
  else
    match exec (countSql st) st.bindings with
    | .error e => ⟨.error (.driver e), st, [(countSql st, st.bindings)]⟩
    | .ok rows =>
      match rows with
      | [] => ⟨.error .jsTypeError, resetState st, [(countSql st, st.bindings)]⟩
      | r :: _ =>
        ⟨.ok (jsParseInt10 (getProp r "count")), resetState st,
          [(countSql st, st.bindings)]⟩

/-- `Builder.create(data)`: executes the compiled INSERT with the insert's
own values, resets, and returns `result[0]` — which is `undefined` (`none`)
when the port returns zero rows. -/
def createOp (st : QueryState) (data : List (String × Val)) (exec : Exec) :
    Outcome (Option Row) :=
  if st.table = "" then ⟨.error .noTable, st, []⟩
  else
    let c := compileInsert st.table data
    match exec c.1 c.2 with
    | .error e => ⟨.error (.driver e), st, [(c.1, c.2)]⟩
    | .ok rows => ⟨.ok rows.head?, resetState st, [(c.1, c.2)]⟩

/-- The sequential loop inside `Builder.createMany`. -/
def createManyAux (exec : Exec) (st : QueryState) :
    List (List (String × Val)) → Outcome (List (Option Row))
  | [] => ⟨.ok [], st, []⟩
  | item :: rest =>
    let o := createOp st item exec
    match o.res with
    | .error e => ⟨.error e, o.post, o.calls⟩
    | .ok r =>
      let o2 := createManyAux exec o.post rest
      match o2.res with
      | .error e => ⟨.error e, o2.post, o.calls ++ o2.calls⟩
      | .ok rs => ⟨.ok (r :: rs), o2.post, o.calls ++ o2.calls⟩

/-- `Builder.createMany(data)`: validates the table, then runs `create` once
per element sequentially, collecting results in input order. -/
def createManyOp (st : QueryState) (items : List (List (String × Val)))
    (exec : Exec) : Outcome (List (Option Row)) :=
  if st.table = "" then ⟨.error .noTable, st, []⟩
  else createManyAux exec st items

/-- `Builder.update(data)`: validates the table, rejects an empty payload,
then executes the compiled UPDATE with `[...setValues, ...bindings]`. -/
def updateOp (st : QueryState) (data : List (String × Val)) (exec : Exec) :
    Outcome (List Row) :=
  if st.table = "" then ⟨.error .noTable, st, []⟩
  else if data.length = 0 then ⟨.error .noData, st, []⟩
  else
    let c := compileUpdate st.table data st.wheres
    let params := c.2 ++ st.bindings
    match exec c.1 params with
    | .error e => ⟨.error (.driver e), st, [(c.1, params)]⟩
    | .ok rows => ⟨.ok rows, resetState st, [(c.1, params)]⟩

/-- `Builder.delete()`. -/
def deleteOp (st : QueryState) (exec : Exec) : Outcome Unit :=
  if st.table = "" then ⟨.error .noTable, st, []⟩
  else
    match exec (compileDelete st.table st.wheres) st.bindings with
    | .error e =>
      ⟨.error (.driver e), st, [(compileDelete st.table st.wheres, st.bindings)]⟩
    | .ok _ =>
      ⟨.ok (), resetState st, [(compileDelete st.table st.wheres, st.bindings)]⟩

/-! ## A uniform view of the terminal operations -/

/-- A terminal operation together with its payload, for statements that
quantify over all of them. -/
inductive TerminalCall where
  | tGet
  | tFirst
  | tCount
  | tCreate (data : List (String × Val))
  | tCreateMany (items : List (List (String × Val)))
  | tUpdate (data : List (String × Val))
  | tDelete
deriving DecidableEq, Repr

/-- Forget a terminal outcome's value, keeping result shape, post-state and
call trace. -/
def eraseOutcome (o : Outcome α) : Outcome Unit :=
  ⟨o.res.map (fun _ => ()), o.post, o.calls⟩

/-- Run any terminal operation, observing only success/error, the post-call
state, and the `execute` trace. -/
def runTerminal : TerminalCall → QueryState → Exec → Outcome Unit
  | .tGet, st, exec => eraseOutcome (getOp st exec)
  | .tFirst, st, exec => eraseOutcome (firstOp st exec)
  | .tCount, st, exec => eraseOutcome (countOp st exec)
  | .tCreate d, st, exec => eraseOutcome (createOp st d exec)
  | .tCreateMany ds, st, exec => eraseOutcome (createManyOp st ds exec)
  | .tUpdate d, st, exec => eraseOutcome (updateOp st d exec)
  | .tDelete, st, exec => eraseOutcome (deleteOp st exec)

/-! ## Spec-side rendering of `compileUpdate`

The spec describes UPDATE placeholder numbering by a running counter: SET
placeholders are `1..m`, and WHERE placeholders continue at `m+1`.  These
two definitions follow the spec's words; the refinement theorem below
compares them with the source-translated `compileUpdate`. -/

/-- SET fragments `k = $n, ...` numbered by a running counter, following the
spec's words for `compileUpdate`. -/
def specSetClause : Nat → List (String × Val) → List String
  | _, [] => []
  | n, (k, _) :: rest => (k ++ " = $" ++ toString n) :: specSetClause (n + 1) rest

/-- WHERE fragments `c op $n, ...` numbered by a running counter starting
after all SET placeholders, following the spec's words. -/
def specWhereClause : Nat → List WhereClause → List String
  | _, [] => []
  | n, w :: rest =>
    (w.column ++ " " ++ w.operator ++ " $" ++ toString n) ::
      specWhereClause (n + 1) rest

/-! ## Concrete fixtures used by witnesses and counterexamples -/

/-- A fresh builder over driver 0, as handed to application code. -/
def builder0 : Builder := { st := initState, driver := 0 }

/-- The spec's concrete chained scenario:
`table('users').where('age','>',18).orderBy('created_at','desc').limit(10).offset(5)`. -/
def chainC2 : Builder :=
  ((((builder0.table "users").where_ "age" ">" (.vInt 18)).orderBy "created_at"
    Direction.desc).limit 10).offset 5

/-- A driver that accepts every query and returns zero rows. -/
def execOk0 : Exec := fun _ _ => .ok []

/-- A driver that fails every query. -/
def execFail : Exec := fun _ _ => .error "connection refused"

/-- A configured state: table `users` with one accumulated predicate. -/
def stUsers : QueryState :=
  { initState with
    table := "users"
    wheres := [⟨"id", "=", .vInt 1⟩]
    bindings := [.vInt 1] }

end ZippyDB

deriving instance DecidableEq for Except

namespace ZippyDB

/-! ## Bridge lemmas -/

/-- Index-shifted maps over the keys coincide with the spec's counter-based
SET rendering. -/
theorem mapIdxFrom_specSet (data : List (String × Val)) :
    ∀ c : Nat,
      mapIdxFrom (fun i key => key ++ " = $" ++ toString (i + 1)) c
          (data.map Prod.fst) =
        specSetClause (c + 1) data := by
  induction data with
  | nil => intro c; rfl
  | cons p rest ih =>
    intro c
    simp only [List.map_cons, mapIdxFrom, specSetClause, ih (c + 1)]

/-- Index-shifted maps over the predicates coincide with the spec's
counter-based WHERE rendering. -/
theorem mapIdxFrom_specWhere (m : Nat) (ws : List WhereClause) :
    ∀ c : Nat,
      mapIdxFrom
          (fun i w => w.column ++ " " ++ w.operator ++ " $" ++
            toString (m + i + 1)) c ws =
        specWhereClause (m + c + 1) ws := by
  induction ws with
  | nil => intro c; rfl
  | cons w rest ih =>
    intro c
    have h : m + (c + 1) + 1 = m + c + 1 + 1 := by omega
    simp only [mapIdxFrom, specWhereClause, ih (c + 1), h]

/-- C1: `compileUpdate(T, data, wheres)` numbers SET placeholders `1..m` in
`data`'s key iteration order; with `n > 0` predicates it appends a WHERE
clause whose placeholders are `m+1..m+n` in where-list order joined by
`AND`, with `n = 0` no WHERE clause appears, and the returned value list
holds only the SET values. -/
theorem compileUpdate_placeholder_numbering (t : String)
    (data : List (String × Val)) (wheres : List WhereClause) :
    compileUpdate t data wheres =
      ("UPDATE " ++ t ++ " SET " ++
          String.intercalate ", " (specSetClause 1 data) ++
          (if wheres = [] then ""
            else " WHERE " ++
              String.intercalate " AND "
                (specWhereClause (data.length + 1) wheres)),
        data.map Prod.snd) := by
  simp only [compileUpdate, jsMapIdx]
  rw [mapIdxFrom_specSet data 0,
    mapIdxFrom_specWhere (data.map Prod.fst).length wheres 0]
  cases wheres with
  | nil => simp
  | cons w rest => simp [String.append_assoc]

/-- C2: the chained scenario
`table('users').where('age','>',18).orderBy('created_at','desc').limit(10).offset(5).get()`
issues exactly one `execute` call, with exactly the expected SQL text and
exactly the bindings `[18]`. -/
theorem get_concrete_chain_sql (exec : Exec) :
    (getOp chainC2.st exec).calls =
      [("SELECT * FROM users WHERE age > $1 ORDER BY created_at DESC LIMIT 10 OFFSET 5",
        [Val.vInt 18])] := by
  have hsql : getSql chainC2.st =
      "SELECT * FROM users WHERE age > $1 ORDER BY created_at DESC LIMIT 10 OFFSET 5" := by
    decide
  have hb : chainC2.st.bindings = [Val.vInt 18] := by decide
  have ht : ¬chainC2.st.table = "" := by decide
  unfold getOp
  rw [if_neg ht]
  cases hx : exec (getSql chainC2.st) chainC2.st.bindings <;> simp [hsql, hb]

/-! ## Case-analysis lemmas for the terminal operations -/

/-- `get()` either rejects the empty table, propagates a driver error with
the state untouched, or succeeds and resets; the one `execute` call carries
`getSql` and the accumulated bindings. -/
theorem getOp_cases (st : QueryState) (exec : Exec) :
    (st.table = "" ∧ getOp st exec = ⟨.error .noTable, st, []⟩) ∨
    (∃ e, getOp st exec =
        ⟨.error (.driver e), st, [(getSql st, st.bindings)]⟩) ∨
    (∃ rows, getOp st exec =
        ⟨.ok rows, resetState st, [(getSql st, st.bindings)]⟩) := by
  unfold getOp
  split
  · next h => exact Or.inl ⟨h, rfl⟩
  · split
    · next e _ => exact Or.inr (Or.inl ⟨e, rfl⟩)
    · next rows _ => exact Or.inr (Or.inr ⟨rows, rfl⟩)

/-- `first()` is `get()` on the limited state, with an empty result mapped
to `none` and everything else passed through. -/
theorem firstOp_cases (st : QueryState) (exec : Exec) :
    (∃ e, (getOp { st with limit := some 1 } exec).res = .error e ∧
        firstOp st exec =
          ⟨.error e, (getOp { st with limit := some 1 } exec).post,
            (getOp { st with limit := some 1 } exec).calls⟩) ∨
    (∃ rows, (getOp { st with limit := some 1 } exec).res = .ok rows ∧
        firstOp st exec =
          ⟨.ok rows.head?, (getOp { st with limit := some 1 } exec).post,
            (getOp { st with limit := some 1 } exec).calls⟩) := by
  simp only [firstOp]
  cases h : (getOp { st with limit := some 1 } exec).res with
  | error e => exact Or.inl ⟨e, rfl, rfl⟩
  | ok rows => exact Or.inr ⟨rows, rfl, rfl⟩

/-- The four possible outcomes of `count()`. -/
theorem countOp_cases (st : QueryState) (exec : Exec) :
    (st.table = "" ∧ countOp st exec = ⟨.error .noTable, st, []⟩) ∨
    (∃ e, countOp st exec =
        ⟨.error (.driver e), st, [(countSql st, st.bindings)]⟩) ∨
    (exec (countSql st) st.bindings = .ok [] ∧ countOp st exec =
        ⟨.error .jsTypeError, resetState st, [(countSql st, st.bindings)]⟩) ∨
    (∃ r rs, exec (countSql st) st.bindings = .ok (r :: rs) ∧ countOp st exec =
        ⟨.ok (jsParseInt10 (getProp r "count")), resetState st,
          [(countSql st, st.bindings)]⟩) := by
  unfold countOp
  split
  · next h => exact Or.inl ⟨h, rfl⟩
  · split
    · next e _ => exact Or.inr (Or.inl ⟨e, rfl⟩)
    · next rows h =>
      cases rows with
      | nil => exact Or.inr (Or.inr (Or.inl ⟨h, rfl⟩))
      | cons r rs => exact Or.inr (Or.inr (Or.inr ⟨r, rs, h, rfl⟩))

/-- The three possible outcomes of `create(data)`: the one `execute` call
carries the insert's own compiled values, never the accumulated bindings. -/
theorem createOp_cases (st : QueryState) (data : List (String × Val))
    (exec : Exec) :
    (st.table = "" ∧ createOp st data exec = ⟨.error .noTable, st, []⟩) ∨
    (∃ e, createOp st data exec =
        ⟨.error (.driver e), st,
          [((compileInsert st.table data).1, (compileInsert st.table data).2)]⟩) ∨
    (∃ rows, exec (compileInsert st.table data).1 (compileInsert st.table data).2
          = .ok rows ∧
        createOp st data exec =
          ⟨.ok rows.head?, resetState st,
            [((compileInsert st.table data).1, (compileInsert st.table data).2)]⟩) := by
  simp only [createOp]
  split
  · next h => exact Or.inl ⟨h, rfl⟩
  · split
    · next e _ => exact Or.inr (Or.inl ⟨e, rfl⟩)
    · next rows h => exact Or.inr (Or.inr ⟨rows, h, rfl⟩)

/-- The four possible outcomes of `update(data)`: both usage errors precede
any `execute` call, and the one `execute` call carries the SET values
followed by the accumulated where bindings. -/
theorem updateOp_cases (st : QueryState) (data : List (String × Val))
    (exec : Exec) :
    (st.table = "" ∧ updateOp st data exec = ⟨.error .noTable, st, []⟩) ∨
    (st.table ≠ "" ∧ data = [] ∧
      updateOp st data exec = ⟨.error .noData, st, []⟩) ∨
    (∃ e, updateOp st data exec =
        ⟨.error (.driver e), st,
          [((compileUpdate st.table data st.wheres).1,
            (compileUpdate st.table data st.wheres).2 ++ st.bindings)]⟩) ∨
    (∃ rows, updateOp st data exec =
        ⟨.ok rows, resetState st,
          [((compileUpdate st.table data st.wheres).1,
            (compileUpdate st.table data st.wheres).2 ++ st.bindings)]⟩) := by
  simp only [updateOp]
  split
  · next h => exact Or.inl ⟨h, rfl⟩
  · next h =>
    split
    · next hlen =>
      exact Or.inr (Or.inl ⟨h, List.length_eq_zero.mp hlen, rfl⟩)
    · next hlen =>
      split
      · next e _ => exact Or.inr (Or.inr (Or.inl ⟨e, rfl⟩))
      · next rows _ => exact Or.inr (Or.inr (Or.inr ⟨rows, rfl⟩))

/-- The three possible outcomes of `delete()`. -/
theorem deleteOp_cases (st : QueryState) (exec : Exec) :
    (st.table = "" ∧ deleteOp st exec = ⟨.error .noTable, st, []⟩) ∨
    (∃ e, deleteOp st exec =
        ⟨.error (.driver e), st,
          [(compileDelete st.table st.wheres, st.bindings)]⟩) ∨
    (deleteOp st exec =
      ⟨.ok (), resetState st, [(compileDelete st.table st.wheres, st.bindings)]⟩) := by
  unfold deleteOp
  split
  · next h => exact Or.inl ⟨h, rfl⟩
  · split
    · next e _ => exact Or.inr (Or.inl ⟨e, rfl⟩)
    · next rows _ => exact Or.inr (Or.inr rfl)

/-- The `createMany` loop: the table name survives, the final state is
either untouched or some reset image, full success from a non-empty input
leaves exactly `resetState` of the entry state, and with a non-empty table
the loop never raises the no-table usage error. -/
theorem createManyAux_facts (exec : Exec)
    (items : List (List (String × Val))) :
    ∀ st : QueryState,
      (createManyAux exec st items).post.table = st.table
      ∧ ((createManyAux exec st items).post = st ∨
          ∃ u, (createManyAux exec st items).post = resetState u)
      ∧ (∀ rs, (createManyAux exec st items).res = .ok rs →
          items = [] ∨ (createManyAux exec st items).post = resetState st)
      ∧ (st.table ≠ "" →
          (createManyAux exec st items).res ≠ .error .noTable) := by
  induction items with
  | nil =>
    intro st
    refine ⟨rfl, Or.inl rfl, fun rs _ => Or.inl rfl, fun _ h => ?_⟩
    simp [createManyAux] at h
  | cons item rest ih =>
    intro st
    rcases createOp_cases st item exec with ⟨hT, heq⟩ | ⟨e, heq⟩ | ⟨rows, _, heq⟩
    · simp only [createManyAux, heq]
      refine ⟨trivial, Or.inl trivial, ?_, ?_⟩
      · intro rs h; exact absurd h (by simp)
      · intro hne _; exact hne hT
    · simp only [createManyAux, heq]
      refine ⟨trivial, Or.inl trivial, ?_, ?_⟩
      · intro rs h; exact absurd h (by simp)
      · intro _ h; simp at h
    · have ih2 := ih (resetState st)
      simp only [createManyAux, heq]
      cases h2 : (createManyAux exec (resetState st) rest).res with
      | error e2 =>
        refine ⟨ih2.1, ?_, ?_, ?_⟩
        · rcases ih2.2.1 with hp | ⟨u, hu⟩
          · exact Or.inr ⟨st, hp⟩
          · exact Or.inr ⟨u, hu⟩
        · intro rs h; exact absurd h (by simp)
        · intro hne h
          have := ih2.2.2.2 hne
          rw [h2] at this
          simp only [Outcome.res] at h
          exact this (by injection h with h3; rw [h3])
      | ok rs2 =>
        refine ⟨ih2.1, ?_, ?_, ?_⟩
        · rcases ih2.2.1 with hp | ⟨u, hu⟩
          · exact Or.inr ⟨st, hp⟩
          · exact Or.inr ⟨u, hu⟩
        · intro rs _
          refine Or.inr ?_
          rcases ih2.2.2.1 rs2 h2 with hnil | hpost
          · subst hnil
            rfl
          · exact hpost
        · intro _ h; exact absurd h (by simp)

/-- The terminal calls whose success path ends in `reset()`: all of them
except `createMany` over an empty input list, which never runs `create`. -/
def resetsOnSuccess : TerminalCall → Bool
  | .tCreateMany [] => false
  | _ => true

/-- The terminal calls that issue at most one `execute` and mutate no state
of their own before it: all but `first` (which sets the limit first) and
`createMany` (which loops). -/
def isSingleShot : TerminalCall → Bool
  | .tFirst => false
  | .tCreateMany _ => false
  | _ => true

/-- The facts of `createManyAux_facts`, lifted to `createMany` itself. -/
theorem createManyOp_facts (st : QueryState)
    (items : List (List (String × Val))) (exec : Exec) :
    (createManyOp st items exec).post.table = st.table
    ∧ ((createManyOp st items exec).post = st ∨
        ∃ u, (createManyOp st items exec).post = resetState u)
    ∧ (∀ rs, (createManyOp st items exec).res = .ok rs →
        items = [] ∨ (createManyOp st items exec).post = resetState st)
    ∧ (st.table ≠ "" → (createManyOp st items exec).res ≠ .error .noTable) := by
  unfold createManyOp
  split
  · next hT =>
    refine ⟨rfl, Or.inl rfl, ?_, fun hne => absurd hT hne⟩
    intro rs h; exact absurd h (by simp)
  · exact createManyAux_facts exec items st

/-! ## Uniform facts about every terminal operation -/

/-- No terminal operation ever changes the `table` field of the state it
leaves behind. -/
theorem runTerminal_post_table (c : TerminalCall) (st : QueryState)
    (exec : Exec) : (runTerminal c st exec).post.table = st.table := by
  cases c with
  | tGet =>
    rcases getOp_cases st exec with ⟨_, heq⟩ | ⟨e, heq⟩ | ⟨rows, heq⟩ <;>
      simp [runTerminal, eraseOutcome, heq, resetState]
  | tFirst =>
    rcases firstOp_cases st exec with ⟨e, _, heq⟩ | ⟨rows, _, heq⟩ <;>
      simp only [runTerminal, eraseOutcome, heq] <;>
      rcases getOp_cases { st with limit := some 1 } exec with
        ⟨_, h2⟩ | ⟨e2, h2⟩ | ⟨r2, h2⟩ <;>
      simp [h2, resetState]
  | tCount =>
    rcases countOp_cases st exec with
      ⟨_, heq⟩ | ⟨e, heq⟩ | ⟨_, heq⟩ | ⟨r, rs, _, heq⟩ <;>
      simp [runTerminal, eraseOutcome, heq, resetState]
  | tCreate d =>
    rcases createOp_cases st d exec with ⟨_, heq⟩ | ⟨e, heq⟩ | ⟨rows, _, heq⟩ <;>
      simp [runTerminal, eraseOutcome, heq, resetState]
  | tCreateMany items =>
    simpa [runTerminal, eraseOutcome] using (createManyOp_facts st items exec).1
  | tUpdate d =>
    rcases updateOp_cases st d exec with
      ⟨_, heq⟩ | ⟨_, _, heq⟩ | ⟨e, heq⟩ | ⟨rows, heq⟩ <;>
      simp [runTerminal, eraseOutcome, heq, resetState]
  | tDelete =>
    rcases deleteOp_cases st exec with ⟨_, heq⟩ | ⟨e, heq⟩ | heq <;>
      simp [runTerminal, eraseOutcome, heq, resetState]

/-- Every terminal operation other than `createMany([])` that succeeds
leaves exactly the reset of its entry state. -/
theorem runTerminal_ok_post (c : TerminalCall) (st : QueryState) (exec : Exec)
    (hc : resetsOnSuccess c = true)
    (h : (runTerminal c st exec).res = .ok ()) :
    (runTerminal c st exec).post = resetState st := by
  cases c with
  | tGet =>
    simp only [runTerminal] at h ⊢
    rcases getOp_cases st exec with ⟨_, heq⟩ | ⟨e, heq⟩ | ⟨rows, heq⟩ <;>
      rw [heq] at h ⊢ <;>
      first
        | rfl
        | exact absurd h (by simp [eraseOutcome, Except.map])
  | tFirst =>
    simp only [runTerminal] at h ⊢
    rcases firstOp_cases st exec with ⟨e, hres, heq⟩ | ⟨rows, hres, heq⟩ <;>
      rw [heq] at h ⊢
    · exact absurd h (by simp [eraseOutcome, Except.map])
    · rcases getOp_cases { st with limit := some 1 } exec with
        ⟨_, h2⟩ | ⟨e2, h2⟩ | ⟨r2, h2⟩ <;> rw [h2] at hres ⊢ <;>
        first
          | rfl
          | exact absurd hres (by simp)
  | tCount =>
    simp only [runTerminal] at h ⊢
    rcases countOp_cases st exec with
      ⟨_, heq⟩ | ⟨e, heq⟩ | ⟨_, heq⟩ | ⟨r, rs, _, heq⟩ <;>
      rw [heq] at h ⊢ <;>
      first
        | rfl
        | exact absurd h (by simp [eraseOutcome, Except.map])
  | tCreate d =>
    simp only [runTerminal] at h ⊢
    rcases createOp_cases st d exec with ⟨_, heq⟩ | ⟨e, heq⟩ | ⟨rows, _, heq⟩ <;>
      rw [heq] at h ⊢ <;>
      first
        | rfl
        | exact absurd h (by simp [eraseOutcome, Except.map])
  | tCreateMany items =>
    cases items with
    | nil => simp [resetsOnSuccess] at hc
    | cons i rest =>
      simp only [runTerminal, eraseOutcome] at h ⊢
      cases hres : (createManyOp st (i :: rest) exec).res with
      | error e => rw [hres] at h; exact absurd h (by simp [Except.map])
      | ok rs =>
        rcases (createManyOp_facts st (i :: rest) exec).2.2.1 rs hres with
          hnil | hpost
        · exact absurd hnil (by simp)
        · exact hpost
  | tUpdate d =>
    simp only [runTerminal] at h ⊢
    rcases updateOp_cases st d exec with
      ⟨_, heq⟩ | ⟨_, _, heq⟩ | ⟨e, heq⟩ | ⟨rows, heq⟩ <;>
      rw [heq] at h ⊢ <;>
      first
        | rfl
        | exact absurd h (by simp [eraseOutcome, Except.map])
  | tDelete =>
    simp only [runTerminal] at h ⊢
    rcases deleteOp_cases st exec with ⟨_, heq⟩ | ⟨e, heq⟩ | heq <;>
      rw [heq] at h ⊢ <;>
      first
        | rfl
        | exact absurd h (by simp [eraseOutcome, Except.map])

/-- A single-query terminal operation that ends in a driver error performs
no reset: the instance keeps its entire pre-call state. -/
theorem runTerminal_driver_post (c : TerminalCall) (st : QueryState)
    (exec : Exec) (hc : isSingleShot c = true) (e : String)
    (h : (runTerminal c st exec).res = .error (.driver e)) :
    (runTerminal c st exec).post = st := by
  cases c with
  | tGet =>
    simp only [runTerminal] at h ⊢
    rcases getOp_cases st exec with ⟨_, heq⟩ | ⟨e2, heq⟩ | ⟨rows, heq⟩ <;>
      rw [heq] at h ⊢ <;>
      first
        | rfl
        | exact absurd h (by simp [eraseOutcome, Except.map])
  | tFirst => simp [isSingleShot] at hc
  | tCount =>
    simp only [runTerminal] at h ⊢
    rcases countOp_cases st exec with
      ⟨_, heq⟩ | ⟨e2, heq⟩ | ⟨_, heq⟩ | ⟨r, rs, _, heq⟩ <;>
      rw [heq] at h ⊢ <;>
      first
        | rfl
        | exact absurd h (by simp [eraseOutcome, Except.map])
  | tCreate d =>
    simp only [runTerminal] at h ⊢
    rcases createOp_cases st d exec with ⟨_, heq⟩ | ⟨e2, heq⟩ | ⟨rows, _, heq⟩ <;>
      rw [heq] at h ⊢ <;>
      first
        | rfl
        | exact absurd h (by simp [eraseOutcome, Except.map])
  | tCreateMany items => simp [isSingleShot] at hc
  | tUpdate d =>
    simp only [runTerminal] at h ⊢
    rcases updateOp_cases st d exec with
      ⟨_, heq⟩ | ⟨_, _, heq⟩ | ⟨e2, heq⟩ | ⟨rows, heq⟩ <;>
      rw [heq] at h ⊢ <;>
      first
        | rfl
        | exact absurd h (by simp [eraseOutcome, Except.map])
  | tDelete =>
    simp only [runTerminal] at h ⊢
    rcases deleteOp_cases st exec with ⟨_, heq⟩ | ⟨e2, heq⟩ | heq <;>
      rw [heq] at h ⊢ <;>
      first
        | rfl
        | exact absurd h (by simp [eraseOutcome, Except.map])

/-- With a non-empty table, no terminal operation can raise the no-table
usage error. -/
theorem runTerminal_noTable (c : TerminalCall) (st : QueryState) (exec : Exec)
    (hT : st.table ≠ "") :
    (runTerminal c st exec).res ≠ .error .noTable := by
  cases c with
  | tGet =>
    simp only [runTerminal]
    rcases getOp_cases st exec with ⟨h1, heq⟩ | ⟨e, heq⟩ | ⟨rows, heq⟩ <;>
      first
        | exact absurd h1 hT
        | (rw [heq]; simp [eraseOutcome, Except.map])
  | tFirst =>
    simp only [runTerminal]
    rcases firstOp_cases st exec with ⟨e, hres, heq⟩ | ⟨rows, hres, heq⟩ <;>
      rw [heq]
    · rcases getOp_cases { st with limit := some 1 } exec with
        ⟨h1, h2⟩ | ⟨e2, h2⟩ | ⟨r2, h2⟩
      · exact absurd h1 hT
      · rw [h2] at hres
        simp only [Outcome.res] at hres
        injection hres with h3
        rw [← h3]
        simp [eraseOutcome, Except.map]
      · rw [h2] at hres
        exact absurd hres (by simp)
    · simp [eraseOutcome, Except.map]
  | tCount =>
    simp only [runTerminal]
    rcases countOp_cases st exec with
      ⟨h1, heq⟩ | ⟨e, heq⟩ | ⟨_, heq⟩ | ⟨r, rs, _, heq⟩ <;>
      first
        | exact absurd h1 hT
        | (rw [heq]; simp [eraseOutcome, Except.map])
  | tCreate d =>
    simp only [runTerminal]
    rcases createOp_cases st d exec with ⟨h1, heq⟩ | ⟨e, heq⟩ | ⟨rows, _, heq⟩ <;>
      first
        | exact absurd h1 hT
        | (rw [heq]; simp [eraseOutcome, Except.map])
  | tCreateMany items =>
    have hfact := (createManyOp_facts st items exec).2.2.2 hT
    simp only [runTerminal, eraseOutcome]
    cases hres : (createManyOp st items exec).res with
    | error e2 =>
      rw [hres] at hfact
      intro h
      simp only [Except.map] at h
      injection h with h3
      rw [h3] at hfact
      exact hfact rfl
    | ok rs => simp [Except.map]
  | tUpdate d =>
    simp only [runTerminal]
    rcases updateOp_cases st d exec with
      ⟨h1, heq⟩ | ⟨_, _, heq⟩ | ⟨e, heq⟩ | ⟨rows, heq⟩ <;>
      first
        | exact absurd h1 hT
        | (rw [heq]; simp [eraseOutcome, Except.map])
  | tDelete =>
    simp only [runTerminal]
    rcases deleteOp_cases st exec with ⟨h1, heq⟩ | ⟨e, heq⟩ | heq <;>
      first
        | exact absurd h1 hT
        | (rw [heq]; simp [eraseOutcome, Except.map])


/-! ## Fluent configuration calls, uniformly -/

/-- One fluent configuration call with its payload. -/
inductive FluentCall where
  | fTable (name : String)
  | fSelect (columns : List String)
  | fDistinct
  | fWhere (column operator : String) (value : Val)
  | fOrderBy (column : String) (direction : Direction)
  | fLimit (n : Int)
  | fOffset (n : Int)
deriving DecidableEq, Repr

/-- Apply one fluent configuration call to a builder. -/
def applyFluent : FluentCall → Builder → Builder
  | .fTable name, b => b.table name
  | .fSelect columns, b => b.select columns
  | .fDistinct, b => b.distinct
  | .fWhere c o v, b => b.where_ c o v
  | .fOrderBy c d, b => b.orderBy c d
  | .fLimit n, b => b.limit n
  | .fOffset n, b => b.offset n

/-- The builder invariant: `bindings` is exactly the list of the `wheres`
values, position by position. -/
def bindingsInv (st : QueryState) : Prop :=
  st.bindings = st.wheres.map WhereClause.value

/-- After any terminal operation, `bindings` and `wheres` are either both
untouched or both cleared. -/
theorem runTerminal_post_bindings (c : TerminalCall) (st : QueryState)
    (exec : Exec) :
    ((runTerminal c st exec).post.bindings = st.bindings ∧
      (runTerminal c st exec).post.wheres = st.wheres) ∨
    ((runTerminal c st exec).post.bindings = [] ∧
      (runTerminal c st exec).post.wheres = []) := by
  cases c with
  | tGet =>
    simp only [runTerminal]
    rcases getOp_cases st exec with ⟨_, heq⟩ | ⟨e, heq⟩ | ⟨rows, heq⟩ <;>
      rw [heq] <;>
      first
        | exact Or.inl ⟨rfl, rfl⟩
        | exact Or.inr ⟨rfl, rfl⟩
  | tFirst =>
    simp only [runTerminal]
    rcases firstOp_cases st exec with ⟨e, _, heq⟩ | ⟨rows, _, heq⟩ <;>
      rw [heq] <;>
      rcases getOp_cases { st with limit := some 1 } exec with
        ⟨_, h2⟩ | ⟨e2, h2⟩ | ⟨r2, h2⟩ <;>
      rw [h2] <;>
      first
        | exact Or.inl ⟨rfl, rfl⟩
        | exact Or.inr ⟨rfl, rfl⟩
  | tCount =>
    simp only [runTerminal]
    rcases countOp_cases st exec with
      ⟨_, heq⟩ | ⟨e, heq⟩ | ⟨_, heq⟩ | ⟨r, rs, _, heq⟩ <;>
      rw [heq] <;>
      first
        | exact Or.inl ⟨rfl, rfl⟩
        | exact Or.inr ⟨rfl, rfl⟩
  | tCreate d =>
    simp only [runTerminal]
    rcases createOp_cases st d exec with ⟨_, heq⟩ | ⟨e, heq⟩ | ⟨rows, _, heq⟩ <;>
      rw [heq] <;>
      first
        | exact Or.inl ⟨rfl, rfl⟩
        | exact Or.inr ⟨rfl, rfl⟩
  | tCreateMany items =>
    simp only [runTerminal, eraseOutcome]
    rcases (createManyOp_facts st items exec).2.1 with hp | ⟨u, hu⟩
    · rw [hp]; exact Or.inl ⟨rfl, rfl⟩
    · rw [hu]; exact Or.inr ⟨rfl, rfl⟩
  | tUpdate d =>
    simp only [runTerminal]
    rcases updateOp_cases st d exec with
      ⟨_, heq⟩ | ⟨_, _, heq⟩ | ⟨e, heq⟩ | ⟨rows, heq⟩ <;>
      rw [heq] <;>
      first
        | exact Or.inl ⟨rfl, rfl⟩
        | exact Or.inr ⟨rfl, rfl⟩
  | tDelete =>
    simp only [runTerminal]
    rcases deleteOp_cases st exec with ⟨_, heq⟩ | ⟨e, heq⟩ | heq <;>
      rw [heq] <;>
      first
        | exact Or.inl ⟨rfl, rfl⟩
        | exact Or.inr ⟨rfl, rfl⟩

/-! ## Claim theorems -/

/-- C3 (counterexample): the claim that **all** mutable fields — `table`
included — are back at construction-time defaults after a terminal call
returns, success or failure, is false: after a successful `get()` on table
`users` the table field still reads `users` (default: the empty string),
and after a driver failure the accumulated `wheres` are not cleared. -/
theorem terminal_reset_claim_cex :
    ((runTerminal .tGet stUsers execOk0).res = .ok ()
      ∧ (runTerminal .tGet stUsers execOk0).post.table = "users"
      ∧ initState.table = "")
    ∧ ((runTerminal .tGet stUsers execFail).res =
          .error (.driver "connection refused")
      ∧ (runTerminal .tGet stUsers execFail).post.wheres = stUsers.wheres
      ∧ stUsers.wheres ≠ []) := by
  decide

/-- C3 (amended): after a terminal call **succeeds** (any of them except
`createMany` over an empty input, which never runs `create`), the mutable
fields `wheres`, `bindings`, `columns`, `orders`, `limit`, `offset` and
`distinct` are back at their construction-time defaults while `table` is
preserved; a single-query terminal call that fails with a driver error
performs no reset and keeps its entire pre-call state. -/
theorem terminal_reset_success_only (c : TerminalCall) (st : QueryState)
    (exec : Exec) (hc : resetsOnSuccess c = true) :
    ((runTerminal c st exec).res = .ok () →
      (runTerminal c st exec).post = resetState st)
    ∧ (isSingleShot c = true → ∀ e,
        (runTerminal c st exec).res = .error (.driver e) →
        (runTerminal c st exec).post = st)
    ∧ (resetState st).table = st.table
    ∧ (resetState st).wheres = [] ∧ (resetState st).bindings = []
    ∧ (resetState st).columns = ["*"] ∧ (resetState st).orders = []
    ∧ (resetState st).limit = none ∧ (resetState st).offset = none
    ∧ (resetState st).distinct = false :=
  ⟨fun h => runTerminal_ok_post c st exec hc h,
    fun hs e h => runTerminal_driver_post c st exec hs e h,
    rfl, rfl, rfl, rfl, rfl, rfl, rfl, rfl⟩

/-- Witness for C3's amended theorem at `get()` on a configured builder. -/
theorem terminal_reset_success_only_witness :
    resetsOnSuccess .tGet = true ∧
    (runTerminal .tGet stUsers execOk0).post = resetState stUsers :=
  ⟨by decide,
    (terminal_reset_success_only .tGet stUsers execOk0 (by decide)).1
      (by decide)⟩

/-- C4: `bindings` mirrors the `wheres` values at every index: it holds of
a fresh builder, every fluent configuration call preserves it, every
completed terminal call preserves it, and it entails both the length
equation and the pointwise correspondence. -/
theorem bindings_mirror_wheres :
    bindingsInv builder0.st
    ∧ (∀ f b, bindingsInv b.st → bindingsInv (applyFluent f b).st)
    ∧ (∀ c st exec, bindingsInv st → bindingsInv (runTerminal c st exec).post)
    ∧ (∀ st, bindingsInv st →
        st.bindings.length = st.wheres.length ∧
        ∀ i, st.bindings.get? i = (st.wheres.get? i).map WhereClause.value) := by
  refine ⟨rfl, ?_, ?_, ?_⟩
  · intro f b h
    cases f <;>
      simp_all [applyFluent, Builder.table, Builder.select, Builder.distinct,
        Builder.where_, Builder.orderBy, Builder.limit, Builder.offset,
        bindingsInv, initState]
  · intro c st exec h
    rcases runTerminal_post_bindings c st exec with ⟨hb, hw⟩ | ⟨hb, hw⟩
    · simp only [bindingsInv, hb, hw]
      exact h
    · simp [bindingsInv, hb, hw]
  · intro st h
    refine ⟨?_, ?_⟩
    · rw [h, List.length_map]
    · intro i
      rw [h, List.get?_map]

/-- Witness for C4 at one `where` call on a fresh builder. -/
theorem bindings_mirror_wheres_witness :
    bindingsInv builder0.st ∧
    bindingsInv ((applyFluent (.fWhere "age" ">" (.vInt 18)) builder0).st) :=
  ⟨rfl,
    bindings_mirror_wheres.2.1 (.fWhere "age" ">" (.vInt 18)) builder0 rfl⟩

/-- C5: a terminal operation invoked while `table` is empty fails with the
no-table usage error, and `update` with an empty data map fails with the
no-data usage error; in both cases no `execute` call is ever issued. -/
theorem usage_errors_before_execute (c : TerminalCall) (st st2 : QueryState)
    (exec exec2 : Exec) (h : st.table = "") (h2 : st2.table ≠ "") :
    ((runTerminal c st exec).res = .error .noTable
      ∧ (runTerminal c st exec).calls = [])
    ∧ ((updateOp st2 [] exec2).res = .error .noData
      ∧ (updateOp st2 [] exec2).calls = []) := by
  constructor
  · cases c <;>
      simp [runTerminal, eraseOutcome, getOp, firstOp, countOp, createOp,
        createManyOp, updateOp, deleteOp, h, Except.map]
  · have hbody : updateOp st2 [] exec2 = ⟨.error .noData, st2, []⟩ := by
      unfold updateOp
      rw [if_neg h2]
      rfl
    rw [hbody]
    exact ⟨rfl, rfl⟩

/-- Witness for C5: `get()` on a fresh builder and `update({})` on a
configured one. -/
theorem usage_errors_before_execute_witness :
    initState.table = "" ∧ stUsers.table ≠ "" ∧
    (((runTerminal .tGet initState execOk0).res = .error .noTable
      ∧ (runTerminal .tGet initState execOk0).calls = [])
    ∧ ((updateOp stUsers [] execOk0).res = .error .noData
      ∧ (updateOp stUsers [] execOk0).calls = [])) :=
  ⟨rfl, by decide,
    usage_errors_before_execute .tGet initState stUsers execOk0 execOk0 rfl
      (by decide)⟩

/-- C6 (evaluation at the failing input): on a builder whose state carries
accumulated bindings, `create({name:'John'})` against a driver that returns
zero rows issues exactly the INSERT with the insert's own value list — not
the accumulated bindings — and **resolves** with `undefined` (no row)
instead of failing. -/
theorem create_zero_rows_resolves_undefined :
    (createOp stUsers [("name", Val.vStr "John")] execOk0).res = .ok none
    ∧ (createOp stUsers [("name", Val.vStr "John")] execOk0).calls
        = [("INSERT INTO users (name) VALUES ($1) RETURNING *",
            [Val.vStr "John"])] := by
  decide

/-- C7: `first()` sets the limit to 1 and delegates to `get()` on that
state, passing the post-state and call trace through unchanged; when the
port returns rows it yields the first one, and when the port returns zero
rows it yields the explicit no-row result rather than an error. -/
theorem first_delegates_to_get (st : QueryState) (exec : Exec)
    (h : st.table ≠ "") :
    (firstOp st exec).res =
        ((getOp { st with limit := some 1 } exec).res).map List.head?
    ∧ (firstOp st exec).post = (getOp { st with limit := some 1 } exec).post
    ∧ (firstOp st exec).calls = (getOp { st with limit := some 1 } exec).calls
    ∧ (∀ rows, (getOp { st with limit := some 1 } exec).res = .ok rows →
        (firstOp st exec).res = .ok rows.head?)
    ∧ ((getOp { st with limit := some 1 } exec).res = .ok [] →
        (firstOp st exec).res = .ok none) := by
  rcases firstOp_cases st exec with ⟨e, hres, heq⟩ | ⟨rows, hres, heq⟩ <;>
    rw [heq, hres]
  · refine ⟨by simp [Except.map], rfl, rfl, ?_, ?_⟩
    · intro rows hcon; exact absurd hcon (by simp)
    · intro hcon; exact absurd hcon (by simp)
  · refine ⟨by simp [Except.map], rfl, rfl, ?_, ?_⟩
    · intro rows2 hok
      injection hok with h3
      rw [h3]
    · intro hok
      injection hok with h3
      rw [h3]
      rfl

/-- Witness for C7 on a configured builder and a one-row driver. -/
theorem first_delegates_to_get_witness :
    stUsers.table ≠ "" ∧
    (firstOp stUsers execOk0).res =
      ((getOp { stUsers with limit := some 1 } execOk0).res).map List.head? :=
  ⟨by decide, (first_delegates_to_get stUsers execOk0 (by decide)).1⟩

/-- C8: `table(name)` hands back a fresh instance: its state is the
construction-time default except for the new table name, it shares the
caller's driver, and it is independent of every other field of the source
builder — two builders over the same driver produce identical instances, so
no accumulated predicate can leak into queries of the new instance. -/
theorem table_returns_fresh_instance (b b2 : Builder) (name : String)
    (h : b.driver = b2.driver) :
    (b.table name).st.table = name
    ∧ (b.table name).st.wheres = []
    ∧ (b.table name).st.bindings = []
    ∧ (b.table name).st.columns = ["*"]
    ∧ (b.table name).st.orders = []
    ∧ (b.table name).st.limit = none
    ∧ (b.table name).st.offset = none
    ∧ (b.table name).st.distinct = false
    ∧ (b.table name).driver = b.driver
    ∧ b.table name = b2.table name := by
  refine ⟨rfl, rfl, rfl, rfl, rfl, rfl, rfl, rfl, rfl, ?_⟩
  simp [Builder.table, h]

/-- Witness for C8: retargeting the configured chain at table `other`
yields the same fresh instance a pristine builder would give. -/
theorem table_returns_fresh_instance_witness :
    chainC2.driver = builder0.driver ∧
    (chainC2.table "other").st.wheres = [] ∧
    chainC2.table "other" = builder0.table "other" :=
  ⟨rfl, (table_returns_fresh_instance chainC2 builder0 "other" rfl).2.1,
    (table_returns_fresh_instance chainC2 builder0 "other"
      rfl).2.2.2.2.2.2.2.2.2⟩

/-- C9: `reset` clears `wheres`, `bindings`, `columns`, `orders`, `limit`,
`offset` and `distinct` but never the table; no terminal call changes the
table field of the state it leaves behind, so a second terminal call on the
same instance can never raise the no-table usage error. -/
theorem reset_preserves_table (c c2 : TerminalCall) (st : QueryState)
    (exec exec2 : Exec) (h : st.table ≠ "") :
    (resetState st).table = st.table
    ∧ (resetState st).wheres = [] ∧ (resetState st).bindings = []
    ∧ (resetState st).columns = ["*"] ∧ (resetState st).orders = []
    ∧ (resetState st).limit = none ∧ (resetState st).offset = none
    ∧ (resetState st).distinct = false
    ∧ (runTerminal c st exec).post.table = st.table
    ∧ (runTerminal c2 (runTerminal c st exec).post exec2).res ≠
        .error .noTable := by
  refine ⟨rfl, rfl, rfl, rfl, rfl, rfl, rfl, rfl,
    runTerminal_post_table c st exec, ?_⟩
  apply runTerminal_noTable
  rw [runTerminal_post_table c st exec]
  exact h

/-- Witness for C9: a `get()` then a `delete()` on the same instance. -/
theorem reset_preserves_table_witness :
    stUsers.table ≠ "" ∧
    (runTerminal .tDelete (runTerminal .tGet stUsers execOk0).post
        execOk0).res ≠ .error .noTable :=
  ⟨by decide,
    (reset_preserves_table .tGet .tDelete stUsers execOk0 execOk0
      (by decide)).2.2.2.2.2.2.2.2.2⟩

/-- C10: when the port answers the COUNT query with zero rows, `count()`
fails with the JavaScript runtime error of reading `.count` on an
out-of-bounds access (after the reset has already run) instead of
returning a number. -/
theorem count_throws_on_empty_result (st : QueryState) (exec : Exec)
    (h : st.table ≠ "")
    (hempty : exec (countSql st) st.bindings = .ok []) :
    (countOp st exec).res = .error .jsTypeError
    ∧ (countOp st exec).post = resetState st := by
  unfold countOp
  rw [if_neg h, hempty]
  exact ⟨rfl, rfl⟩

/-- Witness for C10 against the zero-row driver. -/
theorem count_throws_on_empty_result_witness :
    stUsers.table ≠ "" ∧
    execOk0 (countSql stUsers) stUsers.bindings = .ok [] ∧
    (countOp stUsers execOk0).res = .error .jsTypeError :=
  ⟨by decide, rfl,
    (count_throws_on_empty_result stUsers execOk0 (by decide) rfl).1⟩

end ZippyDB
